import Mathlib

/-!
Shallow embedding of the two programs of this repository:

* `data_analysis.py` — the ingestion and reporting pipeline: mean-imputation
  cleaning of numeric columns, column-name resolution (`pick_col`), per-diet
  aggregation (`avg_macros`), top-5 protein recipes per diet (`top5_by_diet`),
  and the safe macro quotient fields built from zero-as-missing denominators.
* `lambda_function.py` — the remote fetch job: container setup with a
  catch-all `except` branch, blob download, per-diet macro means on the fixed
  `Diet_type` key, and a JSON dump of the resulting records.

Numeric cells are modelled as `ℚ` (missing cells as `Option ℚ`); tables are
lists of records; the remote job's external effects are modelled by an
environment recording the outcome of each external step.
-/

namespace DietAnalysis

/-! ### String ordering (pandas sorts group keys by code points) -/

/-- Code-point key of a string; Python and pandas compare strings
lexicographically by code points, which is the lexicographic order on this
key list. -/
def strKey (s : String) : List Nat := s.data.map Char.toNat

/-- The string order used for group keys: lexicographic on code points. -/
def strLeK (a b : String) : Prop := strKey a ≤ strKey b

instance : DecidableRel strLeK := fun a b => inferInstanceAs (Decidable (strKey a ≤ strKey b))

instance : IsTotal String strLeK := ⟨fun _ _ => le_total _ _⟩

instance : IsTrans String strLeK := ⟨fun _ _ _ h h' => le_trans h h'⟩

/-! ### Cleaner (`data_analysis.py` lines 25–34)

A numeric column is a `List (Option ℚ)`; `none` is a missing cell (NaN).
`df[col].mean()` skips missing cells and is NaN on an all-missing column;
`fillna` with a NaN fill value leaves missing cells in place, which is why
`colMean` returns an `Option` and `fillVal none` is the identity. -/

/-- Mean of a numeric column over its non-missing cells, as pandas
`Series.mean` computes it (`none` when every cell is missing). -/
def colMean (xs : List (Option ℚ)) : Option ℚ :=
  let vs := xs.reduceOption
  if vs.length = 0 then none else some (vs.sum / vs.length)

/-- One cell after `fillna(m)`: a present cell is kept, a missing cell
becomes `m` when `m` is a number and stays missing when `m` is NaN. -/
def fillVal (m : Option ℚ) (x : Option ℚ) : Option ℚ :=
  match x with
  | some v => some v
  | none => m

/-- The cleaning step on one numeric column:
`df[col] = df[col].fillna(df[col].mean())`. -/
def fillColumn (xs : List (Option ℚ)) : List (Option ℚ) :=
  xs.map (fillVal (colMean xs))

/-- Count of missing cells of a column (`df[col].isna().sum()`). -/
def countMissing (xs : List (Option ℚ)) : Nat :=
  (xs.filter Option.isNone).length

/-! ### Records of the cleaned table -/

/-- One row of the cleaned table, with the six resolved semantic fields. -/
structure Record where
  dietType : String
  recipe : String
  cuisine : String
  protein : ℚ
  carbs : ℚ
  fat : ℚ
deriving DecidableEq

/-- Arithmetic mean of a list of rationals. -/
def meanOf (l : List ℚ) : ℚ := l.sum / l.length

/-- Rows of one diet-type group. -/
def groupRows (rs : List Record) (d : String) : List Record :=
  rs.filter (fun r => r.dietType == d)

/-- Distinct diet types in the groupby key order (ascending by key, the
pandas `groupby` default). -/
def dietTypes (rs : List Record) : List String :=
  List.insertionSort strLeK ((rs.map (·.dietType)).dedup)

/-- One row of the `avg_macros` aggregate table. -/
structure AggRow where
  dietType : String
  meanProtein : ℚ
  meanCarbs : ℚ
  meanFat : ℚ
deriving DecidableEq

/-- Comparison used by `sort_values(by=protein_col, ascending=False)` on the
aggregate table. -/
def aggGE (a b : AggRow) : Prop := b.meanProtein ≤ a.meanProtein

instance : DecidableRel aggGE := fun a b => inferInstanceAs (Decidable (b.meanProtein ≤ a.meanProtein))

instance : IsTotal AggRow aggGE := ⟨fun a b => le_total b.meanProtein a.meanProtein⟩

instance : IsTrans AggRow aggGE := ⟨fun _ _ _ h h' => le_trans h' h⟩

/-- The `avg_macros` table (`data_analysis.py` lines 70–74): per-diet means
of protein, carbs and fat, sorted descending by mean protein. -/
def avg_macros (rs : List Record) : List AggRow :=
  List.insertionSort aggGE
    ((dietTypes rs).map (fun d =>
      ⟨d, meanOf ((groupRows rs d).map (·.protein)),
          meanOf ((groupRows rs d).map (·.carbs)),
          meanOf ((groupRows rs d).map (·.fat))⟩))

/-! ### Top 5 protein recipes per diet (`data_analysis.py` lines 83–87) -/

/-- Comparison used by `sort_values(by=protein_col, ascending=False)` on the
record table. -/
def recGE (a b : Record) : Prop := b.protein ≤ a.protein

instance : DecidableRel recGE := fun a b => inferInstanceAs (Decidable (b.protein ≤ a.protein))

instance : IsTotal Record recGE := ⟨fun a b => le_total b.protein a.protein⟩

instance : IsTrans Record recGE := ⟨fun _ _ _ h h' => le_trans h' h⟩

/-- All records sorted descending by protein. -/
def sortByProteinDesc (rs : List Record) : List Record :=
  List.insertionSort recGE rs

/-- Number of records of diet type `d` in a list. -/
def countDiet (d : String) (l : List Record) : Nat :=
  (l.filter (fun r => r.dietType == d)).length

/-- Scan of `groupby(diet_col).head(n)` over an already-sorted frame: a row
is kept exactly when fewer than `n` rows of its group have been kept so far
(`acc` is the list of rows kept so far). -/
def takeHeadPerGroup (n : Nat) : List Record → List Record → List Record
  | _, [] => []
  | acc, r :: rs =>
    if countDiet r.dietType acc < n then
      r :: takeHeadPerGroup n (acc ++ [r]) rs
    else
      takeHeadPerGroup n acc rs

/-- The `top5_by_diet` selection: sort all records descending by protein,
then keep the first five rows of each diet-type group. -/
def top5_by_diet (rs : List Record) : List Record :=
  takeHeadPerGroup 5 [] (sortByProteinDesc rs)

/-! ### Column resolution and the fatal-abort branch
(`data_analysis.py` lines 39–57) -/

/-- The `pick_col` helper: first candidate name present in the table's
column set, `none` when no candidate is present. -/
def pick_col (possible : List String) (cols : List String) : Option String :=
  possible.find? (fun nm => cols.contains nm)

/-- Candidate spellings for the diet-type column. -/
def dietCandidates : List String := ["Diet_type", "Diet Type", "diet_type", "diet"]

/-- Candidate spellings for the recipe-name column. -/
def recipeCandidates : List String := ["Recipe_name", "Recipe Name", "recipe_name", "Recipe"]

/-- Candidate spellings for the cuisine-type column. -/
def cuisineCandidates : List String := ["Cuisine_type", "Cuisine Type", "cuisine_type", "Cuisine"]

/-- Candidate spellings for the protein column. -/
def proteinCandidates : List String := ["Protein(g)", "Protein", "protein"]

/-- Candidate spellings for the carbs column. -/
def carbsCandidates : List String :=
  ["Carbs(g)", "Carbs", "carbs", "Carbohydrates(g)", "Carbohydrates"]

/-- Candidate spellings for the fat column. -/
def fatCandidates : List String := ["Fat(g)", "Fat", "fat"]

/-- The `required` list of resolved columns, in source order. -/
def requiredResolved (cols : List String) : List (Option String) :=
  [pick_col dietCandidates cols, pick_col recipeCandidates cols,
   pick_col cuisineCandidates cols, pick_col proteinCandidates cols,
   pick_col carbsCandidates cols, pick_col fatCandidates cols]

/-- Aggregate outputs of a successful pipeline run. -/
structure PipelineSummary where
  avgRows : List AggRow
  topRows : List Record
deriving DecidableEq

/-- Control flow of the pipeline around the required-column check: when any
required field resolves to `none` the run raises `SystemExit(1)` carrying the
detected column list in its diagnostic output and no aggregation is built;
otherwise the aggregates are computed. -/
def runPipeline (cols : List String) (rs : List Record) :
    Except (Nat × List String) PipelineSummary :=
  if (requiredResolved cols).any (fun x => x.isNone) then
    Except.error (1, cols)
  else
    Except.ok ⟨avg_macros rs, top5_by_diet rs⟩

/-! ### Derived quotient metrics (`data_analysis.py` lines 120–124) -/

/-- The `replace(0, pd.NA)` step on one denominator cell. -/
def safeDenom (q : ℚ) : Option ℚ := if q = 0 then none else some q

/-- Elementwise division with a possibly-missing denominator; a missing
denominator yields a missing quotient. -/
def divOpt (num : ℚ) (den : Option ℚ) : Option ℚ :=
  den.map (fun d => num / d)

/-- The `Protein_to_Carbs_ratio` cell of one record. -/
def proteinToCarbs (r : Record) : Option ℚ :=
  divOpt r.protein (safeDenom r.carbs)

/-- The `Carbs_to_Fat_ratio` cell of one record. -/
def carbsToFat (r : Record) : Option ℚ :=
  divOpt r.carbs (safeDenom r.fat)

/-! ### Raw (uncleaned) table, shared by the cleaner and the remote job -/

/-- One parsed CSV row before cleaning: macro cells may be missing. -/
structure RawRecord where
  diet : String
  protein : Option ℚ
  carbs : Option ℚ
  fat : Option ℚ
deriving DecidableEq

/-- The pipeline's cleaning step on the whole table: each numeric column is
mean-imputed with its own column mean. -/
def cleanTable (rs : List RawRecord) : List RawRecord :=
  let mp := colMean (rs.map (·.protein))
  let mc := colMean (rs.map (·.carbs))
  let mf := colMean (rs.map (·.fat))
  rs.map (fun r => ⟨r.diet, fillVal mp r.protein, fillVal mc r.carbs, fillVal mf r.fat⟩)

/-- Distinct diet types of a raw table, ascending by key (the `groupby`
default key order). -/
def rawDietTypes (rs : List RawRecord) : List String :=
  List.insertionSort strLeK ((rs.map (·.diet)).dedup)

/-- Per-group mean of one macro column over non-missing cells, as
`groupby(...).mean()` computes it. -/
def groupMeanOpt (rs : List RawRecord) (f : RawRecord → Option ℚ) (d : String) : Option ℚ :=
  colMean ((rs.filter (fun r => r.diet == d)).map f)

/-- One record of the remote job's JSON output array. -/
structure LambdaRow where
  dietType : String
  meanProtein : Option ℚ
  meanCarbs : Option ℚ
  meanFat : Option ℚ
deriving DecidableEq

/-- The remote job's aggregate (`lambda_function.py` lines 36–39):
`df.groupby("Diet_type")[[...]].mean()` followed by
`reset_index().to_dict(orient="records")` — one record per distinct diet
type, in the groupby's ascending key order, no re-sorting. -/
def lambdaAvgMacros (rs : List RawRecord) : List LambdaRow :=
  (rawDietTypes rs).map (fun d =>
    ⟨d, groupMeanOpt rs (·.protein) d,
        groupMeanOpt rs (·.carbs) d,
        groupMeanOpt rs (·.fat) d⟩)

/-! ### Remote job control flow (`lambda_function.py` lines 21–43) -/

/-- Kinds of exception an external step of the remote job can raise. -/
inductive PyExn where
  | alreadyExists
  | connectionError
  | otherError
deriving DecidableEq

/-- Outcomes of the remote job's three external steps: container creation,
blob download (already parsed into rows), and the JSON write. -/
structure RemoteEnv where
  createResult : Except PyExn Unit
  downloadResult : Except PyExn (List RawRecord)
  writeResult : Except PyExn Unit

/-- Control flow of `process_nutritional_data_from_azurite`: the
`create_container` call sits in a `try` whose bare `except Exception` branch
swallows every exception it raises (printing "Container already exists"),
so `createResult` never influences the run; a download failure or a write
failure propagates uncaught; otherwise the JSON records are produced. -/
def runRemoteJob (env : RemoteEnv) : Except PyExn (List LambdaRow) :=
  match env.downloadResult with
  | Except.error e => Except.error e
  | Except.ok rows =>
    match env.writeResult with
    | Except.error e => Except.error e
    | Except.ok _ => Except.ok (lambdaAvgMacros rows)

/-! ### Cleaner lemmas and claim C1 -/

theorem fillVal_some (m : ℚ) (x : Option ℚ) : fillVal (some m) x = some (x.getD m) := by
  cases x <;> rfl

theorem reduceOption_map_getD (m : ℚ) :
    ∀ xs : List (Option ℚ),
      (xs.map (fun x => some (x.getD m))).reduceOption = xs.map (fun x => x.getD m)
  | [] => rfl
  | x :: xs => by
    simp [List.reduceOption_cons_of_some, reduceOption_map_getD m xs]

theorem countMissing_cons_none (xs : List (Option ℚ)) :
    countMissing ((none : Option ℚ) :: xs) = countMissing xs + 1 := by
  simp [countMissing, List.filter_cons]

theorem countMissing_cons_some (v : ℚ) (xs : List (Option ℚ)) :
    countMissing (some v :: xs) = countMissing xs := by
  simp [countMissing, List.filter_cons]

theorem sum_map_getD (m : ℚ) :
    ∀ xs : List (Option ℚ),
      (xs.map (fun x => x.getD m)).sum = xs.reduceOption.sum + (countMissing xs) * m
  | [] => by simp [countMissing]
  | none :: xs => by
    rw [List.map_cons, List.sum_cons, sum_map_getD m xs, countMissing_cons_none]
    simp [List.reduceOption_cons_of_none]
    ring
  | some v :: xs => by
    rw [List.map_cons, List.sum_cons, sum_map_getD m xs, countMissing_cons_some]
    simp [List.reduceOption_cons_of_some]
    ring

theorem length_split_missing :
    ∀ xs : List (Option ℚ), xs.length = xs.reduceOption.length + countMissing xs
  | [] => by simp [countMissing]
  | none :: xs => by
    rw [List.length_cons, length_split_missing xs, countMissing_cons_none]
    simp [List.reduceOption_cons_of_none]
    omega
  | some v :: xs => by
    rw [List.length_cons, length_split_missing xs, countMissing_cons_some]
    simp [List.reduceOption_cons_of_some]
    omega

/-- C1 (amended): for every numeric column that has at least one non-missing
value, the cleaning step leaves no missing value and the column's arithmetic
mean over non-missing values is unchanged. (The amendment restricts the
claim to columns that are not entirely missing: on an all-missing column the
fill value itself is NaN and the column is left unfilled, see
`cleaning_counterexample`.) -/
theorem cleaning_fills_and_preserves_mean (xs : List (Option ℚ))
    (h : ∃ v, some v ∈ xs) :
    countMissing (fillColumn xs) = 0 ∧ colMean (fillColumn xs) = colMean xs := by
  obtain ⟨v, hv⟩ := h
  have hvs : v ∈ xs.reduceOption := List.reduceOption_mem_iff.mpr hv
  have hlen : xs.reduceOption.length ≠ 0 := by
    intro h0
    rw [List.length_eq_zero] at h0
    rw [h0] at hvs
    exact List.not_mem_nil v hvs
  set m : ℚ := xs.reduceOption.sum / xs.reduceOption.length with hm
  have hcm : colMean xs = some m := by
    rw [colMean]
    simp only [if_neg hlen]
  have hmapf : xs.map (fillVal (some m)) = xs.map (fun x => some (x.getD m)) :=
    List.map_congr_left (fun x _ => fillVal_some m x)
  constructor
  · rw [fillColumn, hcm, countMissing, List.length_eq_zero, List.filter_eq_nil_iff]
    intro a ha
    obtain ⟨x, -, rfl⟩ := List.mem_map.mp ha
    rw [fillVal_some]
    simp
  · rw [fillColumn, hcm, hmapf, colMean, reduceOption_map_getD]
    have hL : (0 : ℚ) < xs.reduceOption.length := by
      exact_mod_cast Nat.pos_of_ne_zero hlen
    have hlen2 : (xs.map (fun x => x.getD m)).length ≠ 0 := by
      rw [List.length_map, length_split_missing xs]
      omega
    rw [if_neg hlen2]
    congr 1
    rw [sum_map_getD, List.length_map, length_split_missing xs, hm]
    push_cast
    field_simp
    ring

/-- C1 as stated is false on a column whose single cell is missing: the fill
value `df[col].mean()` is itself NaN there, so `fillna` leaves the cell
missing and the count of missing values after cleaning is 1, not 0. -/
theorem cleaning_counterexample :
    ¬ (countMissing (fillColumn [(none : Option ℚ)]) = 0 ∧
       colMean (fillColumn [(none : Option ℚ)]) = colMean [(none : Option ℚ)]) := by
  decide

/-- Witness for `cleaning_fills_and_preserves_mean` at the concrete column
`[none, some 2]`. -/
theorem cleaning_witness :
    countMissing (fillColumn [none, some 2]) = 0 ∧
    colMean (fillColumn [none, some 2]) = colMean [none, some 2] :=
  cleaning_fills_and_preserves_mean [none, some 2] ⟨2, by simp⟩

/-! ### Aggregation lemmas and claim C2 -/

/-- The 3-row end-to-end dataset of the spec: diet types A, A, B with
protein 10, 20, 5. -/
def rsEx2 : List Record :=
  [⟨"A", "r1", "c1", 10, 1, 1⟩, ⟨"A", "r2", "c2", 20, 1, 1⟩, ⟨"B", "r3", "c3", 5, 1, 1⟩]

theorem avg_macros_rsEx2 :
    avg_macros rsEx2 = [⟨"A", 15, 1, 1⟩, ⟨"B", 5, 1, 1⟩] := by
  have h1 : dietTypes rsEx2 = ["A", "B"] := by decide
  have h2 : groupRows rsEx2 "A" =
      [⟨"A", "r1", "c1", 10, 1, 1⟩, ⟨"A", "r2", "c2", 20, 1, 1⟩] := by decide
  have h3 : groupRows rsEx2 "B" = [⟨"B", "r3", "c3", 5, 1, 1⟩] := by decide
  simp only [avg_macros, h1, List.map_cons, List.map_nil, h2, h3]
  norm_num [meanOf, List.insertionSort, List.orderedInsert, aggGE]

/-- C2: every row of the `avg_macros` aggregate carries the arithmetic mean
of its diet group's protein, carbs and fat values; the aggregate is sorted
descending by mean protein; and on the 3-row dataset with diet types
A, A, B and protein 10, 20, 5 the aggregate is A with mean protein 15
followed by B with mean protein 5. -/
theorem avg_macros_spec (rs : List Record) :
    (∀ row ∈ avg_macros rs,
        row.meanProtein = meanOf ((groupRows rs row.dietType).map (·.protein)) ∧
        row.meanCarbs = meanOf ((groupRows rs row.dietType).map (·.carbs)) ∧
        row.meanFat = meanOf ((groupRows rs row.dietType).map (·.fat))) ∧
    List.Sorted aggGE (avg_macros rs) ∧
    (avg_macros rsEx2).map (fun a => (a.dietType, a.meanProtein)) = [("A", 15), ("B", 5)] := by
  refine ⟨?_, ?_, ?_⟩
  · intro row hrow
    rw [avg_macros, List.mem_insertionSort] at hrow
    obtain ⟨d, -, rfl⟩ := List.mem_map.mp hrow
    exact ⟨rfl, rfl, rfl⟩
  · simp only [avg_macros]
    exact List.sorted_insertionSort aggGE _
  · rw [avg_macros_rsEx2]
    simp

/-- Witness for `avg_macros_spec` at the 3-row dataset, instantiating the
per-row conjunct at the aggregate row of diet type A. -/
theorem avg_macros_spec_witness :
    (⟨"A", 15, 1, 1⟩ : AggRow).meanProtein
      = meanOf ((groupRows rsEx2 (⟨"A", 15, 1, 1⟩ : AggRow).dietType).map (·.protein)) :=
  ((avg_macros_spec rsEx2).1 ⟨"A", 15, 1, 1⟩
    (by rw [avg_macros_rsEx2]; simp)).1

/-! ### Top-5 selection lemmas and claim C3 -/

theorem countDiet_append_single (d : String) (l : List Record) (r : Record) :
    countDiet d (l ++ [r]) = countDiet d l + (if r.dietType == d then 1 else 0) := by
  rw [countDiet, countDiet, List.filter_append, List.length_append]
  congr 1
  by_cases h : (r.dietType == d) = true <;> simp [List.filter_cons, h]

theorem filter_takeHeadPerGroup (n : Nat) (d : String) :
    ∀ (l acc : List Record),
      (takeHeadPerGroup n acc l).filter (fun r => r.dietType == d)
        = (l.filter (fun r => r.dietType == d)).take (n - countDiet d acc)
  | [], acc => by simp [takeHeadPerGroup]
  | r :: rs, acc => by
    rw [takeHeadPerGroup]
    by_cases hk : countDiet r.dietType acc < n
    · rw [if_pos hk]
      by_cases hd : (r.dietType == d) = true
      · have hdd : r.dietType = d := by simpa using hd
        subst hdd
        rw [List.filter_cons_of_pos (by simp), List.filter_cons_of_pos (by simp),
          filter_takeHeadPerGroup n r.dietType rs (acc ++ [r]),
          countDiet_append_single, if_pos (by simp),
          show n - countDiet r.dietType acc
              = (n - (countDiet r.dietType acc + 1)) + 1 from by omega,
          List.take_succ_cons]
      · rw [List.filter_cons_of_neg (by simpa using hd),
          List.filter_cons_of_neg (by simpa using hd),
          filter_takeHeadPerGroup n d rs (acc ++ [r]),
          countDiet_append_single, if_neg (by simpa using hd), Nat.add_zero]
    · rw [if_neg hk]
      rw [filter_takeHeadPerGroup n d rs acc]
      by_cases hd : (r.dietType == d) = true
      · have hdd : r.dietType = d := by simpa using hd
        subst hdd
        have h0 : n - countDiet r.dietType acc = 0 := by omega
        rw [List.filter_cons_of_pos (by simp), h0]
        simp
      · rw [List.filter_cons_of_neg (by simpa using hd)]

theorem top5_filter_eq (rs : List Record) (d : String) :
    (top5_by_diet rs).filter (fun r => r.dietType == d)
      = ((sortByProteinDesc rs).filter (fun r => r.dietType == d)).take 5 := by
  rw [top5_by_diet, filter_takeHeadPerGroup]
  norm_num [countDiet]

/-- C3: for every table and diet type, the top-protein selection keeps at
most 5 records of that diet type; together with the dropped tail of the
sorted group it is a permutation of the whole group (so the dropped tail is
exactly the excluded records); and every kept record's protein is at least
every excluded same-diet record's protein. -/
theorem top5_by_diet_spec (rs : List Record) (d : String) :
    ((top5_by_diet rs).filter (fun r => r.dietType == d)).length ≤ 5 ∧
    ((top5_by_diet rs).filter (fun r => r.dietType == d) ++
        ((sortByProteinDesc rs).filter (fun r => r.dietType == d)).drop 5).Perm
      (rs.filter (fun r => r.dietType == d)) ∧
    (∀ x ∈ (top5_by_diet rs).filter (fun r => r.dietType == d),
      ∀ y ∈ ((sortByProteinDesc rs).filter (fun r => r.dietType == d)).drop 5,
        y.protein ≤ x.protein) := by
  have hfe := top5_filter_eq rs d
  have hperm : ((sortByProteinDesc rs).filter (fun r => r.dietType == d)).Perm
      (rs.filter (fun r => r.dietType == d)) :=
    (List.perm_insertionSort recGE rs).filter _
  have hsorted :
      ((sortByProteinDesc rs).filter (fun r => r.dietType == d)).Pairwise recGE :=
    List.Pairwise.filter _ (List.sorted_insertionSort recGE rs)
  refine ⟨?_, ?_, ?_⟩
  · rw [hfe, List.length_take]
    omega
  · rw [hfe, List.take_append_drop]
    exact hperm
  · have hpw : (((sortByProteinDesc rs).filter (fun r => r.dietType == d)).take 5 ++
        ((sortByProteinDesc rs).filter (fun r => r.dietType == d)).drop 5).Pairwise recGE := by
      rw [List.take_append_drop]
      exact hsorted
    have h3 := (List.pairwise_append.mp hpw).2.2
    intro x hx y hy
    exact h3 x (by rw [hfe] at hx; exact hx) y hy

/-- One all-A record with a given protein value, for the C3 witness data. -/
def recW (p : ℚ) : Record := ⟨"A", "r", "c", p, 0, 0⟩

/-- Six records of one diet type, so that the top-5 selection excludes one. -/
def rsW3 : List Record := [recW 10, recW 20, recW 30, recW 40, recW 50, recW 60]

/-- Witness for `top5_by_diet_spec` on six same-diet records: the excluded
record (protein 10) has protein ≤ a kept record (protein 60). -/
theorem top5_by_diet_witness :
    (recW 10).protein ≤ (recW 60).protein :=
  (top5_by_diet_spec rsW3 "A").2.2 (recW 60) (by decide) (recW 10) (by decide)

/-! ### Quotient metrics, claim C4 -/

/-- C4: a record with zero carbs has a missing protein-to-carbs quotient
(not an error, not an infinity), a record with zero fat has a missing
carbs-to-fat quotient, and a record with carbs 5 and protein 10 has
protein-to-carbs quotient 2. -/
theorem macro_quotients_spec (r : Record) :
    (r.carbs = 0 → proteinToCarbs r = none) ∧
    (r.fat = 0 → carbsToFat r = none) ∧
    (r.carbs = 5 → r.protein = 10 → proteinToCarbs r = some 2) := by
  refine ⟨?_, ?_, ?_⟩
  · intro h
    simp [proteinToCarbs, safeDenom, divOpt, h]
  · intro h
    simp [carbsToFat, safeDenom, divOpt, h]
  · intro hc hp
    norm_num [proteinToCarbs, safeDenom, divOpt, hc, hp]

/-- Concrete record with protein 10, carbs 5 and fat 0, for the C4 witness. -/
def recQ : Record := ⟨"A", "r", "c", 10, 5, 0⟩

/-- Witness for `macro_quotients_spec` at `recQ`: its carbs-to-fat quotient
is missing (fat is 0) and its protein-to-carbs quotient is 2. -/
theorem macro_quotients_witness :
    carbsToFat recQ = none ∧ proteinToCarbs recQ = some 2 :=
  ⟨(macro_quotients_spec recQ).2.1 rfl,
   (macro_quotients_spec recQ).2.2 rfl rfl⟩

/-! ### Column resolution, claims C6 and C7 -/

theorem pick_col_unique_helper (p cols : List String) (nm : String)
    (hnp : nm ∈ p) (hnc : nm ∈ cols) (huniq : ∀ m ∈ p, m ∈ cols → m = nm) :
    pick_col p cols = some nm := by
  have hsome : (p.find? (fun s => cols.contains s)).isSome := by
    rw [List.find?_isSome]
    exact ⟨nm, hnp, by simpa using hnc⟩
  obtain ⟨x, hx⟩ := Option.isSome_iff_exists.mp hsome
  have hpx : cols.contains x = true := List.find?_some hx
  have hmem : x ∈ p := List.mem_of_find?_eq_some hx
  have hxn : x = nm := huniq x hmem (by simpa using hpx)
  rw [pick_col, hx, hxn]

/-- C6: `pick_col` returns the first candidate name present in the column
set (the defining first-match recurrence), and on a table containing
exactly one accepted spelling the resolved identity is that spelling for
every ordering of the candidate list. -/
theorem pick_col_spec :
    (∀ (a : String) (p cols : List String),
        pick_col (a :: p) cols = if a ∈ cols then some a else pick_col p cols) ∧
    (∀ (p₁ p₂ cols : List String) (nm : String),
        p₁.Perm p₂ → nm ∈ p₁ → nm ∈ cols → (∀ m ∈ p₁, m ∈ cols → m = nm) →
        pick_col p₁ cols = some nm ∧ pick_col p₂ cols = some nm) := by
  constructor
  · intro a p cols
    by_cases h : a ∈ cols
    · rw [if_pos h, pick_col, List.find?_cons_of_pos _ (by simpa using h)]
    · rw [if_neg h, pick_col, pick_col, List.find?_cons_of_neg _ (by simpa using h)]
  · intro p₁ p₂ cols nm hperm hnp hnc huniq
    refine ⟨pick_col_unique_helper p₁ cols nm hnp hnc huniq,
      pick_col_unique_helper p₂ cols nm (hperm.mem_iff.mp hnp) hnc ?_⟩
    intro m hm hmc
    exact huniq m (hperm.mem_iff.mpr hm) hmc

/-- Witness for `pick_col_spec`: a table whose only protein spelling is
"Protein" resolves to "Protein" under the source candidate order and under
its reversal. -/
theorem pick_col_spec_witness :
    pick_col proteinCandidates ["Protein"] = some "Protein" ∧
    pick_col proteinCandidates.reverse ["Protein"] = some "Protein" :=
  pick_col_spec.2 proteinCandidates proteinCandidates.reverse ["Protein"] "Protein"
    (List.reverse_perm proteinCandidates).symm (by decide) (by decide) (by decide)

/-- C7: when some required semantic field resolves to no column the pipeline
aborts with exit status 1 carrying the detected column list and builds no
aggregate; when all six fields resolve it aborts nowhere and produces the
aggregates. -/
theorem pipeline_abort_spec (cols : List String) (rs : List Record) :
    ((none ∈ requiredResolved cols) → runPipeline cols rs = Except.error (1, cols)) ∧
    ((∀ x ∈ requiredResolved cols, x.isSome) →
      runPipeline cols rs = Except.ok ⟨avg_macros rs, top5_by_diet rs⟩) := by
  constructor
  · intro h
    rw [runPipeline, if_pos]
    rw [List.any_eq_true]
    exact ⟨none, h, rfl⟩
  · intro h
    rw [runPipeline, if_neg]
    rw [List.any_eq_true]
    rintro ⟨x, hx, hxn⟩
    cases x with
    | none => simpa using h none hx
    | some v => simp at hxn

/-- Column set of the repository's dataset, on which all six fields resolve. -/
def colsOk : List String :=
  ["Diet_type", "Recipe_name", "Cuisine_type", "Protein(g)", "Carbs(g)", "Fat(g)"]

/-- Column set missing every diet-type spelling. -/
def colsBad : List String :=
  ["Recipe_name", "Cuisine_type", "Protein(g)", "Carbs(g)", "Fat(g)"]

/-- Witness for `pipeline_abort_spec`: the run aborts with status 1 on
`colsBad` and succeeds on `colsOk`. -/
theorem pipeline_abort_witness :
    runPipeline colsBad [] = Except.error (1, colsBad) ∧
    runPipeline colsOk [] = Except.ok ⟨avg_macros [], top5_by_diet []⟩ :=
  ⟨(pipeline_abort_spec colsBad []).1 (by decide),
   (pipeline_abort_spec colsOk []).2 (by decide)⟩

/-! ### Remote job versus pipeline aggregation, claim C5 -/

theorem fillVal_of_isSome {m x : Option ℚ} (h : x.isSome) : fillVal m x = x := by
  obtain ⟨v, rfl⟩ := Option.isSome_iff_exists.mp h
  rfl

theorem cleanTable_eq_self (rs : List RawRecord)
    (h : ∀ r ∈ rs, r.protein.isSome ∧ r.carbs.isSome ∧ r.fat.isSome) :
    cleanTable rs = rs := by
  simp only [cleanTable]
  conv_rhs => rw [← List.map_id rs]
  apply List.map_congr_left
  intro r hr
  obtain ⟨hp, hc, hf⟩ := h r hr
  cases r with
  | mk diet p c f =>
    simp only [id_eq]
    rw [fillVal_of_isSome hp, fillVal_of_isSome hc, fillVal_of_isSome hf]

/-- C5 (amended): on datasets with no missing macro value, the remote job's
per-diet macro means coincide with the pipeline aggregator's per-diet means.
(The amendment restricts the claim to complete datasets: when a group has a
missing cell the pipeline first imputes it with the global column mean,
which shifts that group's mean away from the remote job's skip-missing mean,
see `remote_pipeline_counterexample`.) -/
theorem remote_matches_pipeline (rs : List RawRecord)
    (h : ∀ r ∈ rs, r.protein.isSome ∧ r.carbs.isSome ∧ r.fat.isSome) (d : String) :
    groupMeanOpt (cleanTable rs) (·.protein) d = groupMeanOpt rs (·.protein) d ∧
    groupMeanOpt (cleanTable rs) (·.carbs) d = groupMeanOpt rs (·.carbs) d ∧
    groupMeanOpt (cleanTable rs) (·.fat) d = groupMeanOpt rs (·.fat) d := by
  rw [cleanTable_eq_self rs h]
  exact ⟨rfl, rfl, rfl⟩

theorem beqAA : (("A" : String) == "A") = true := by decide

theorem beqBA : (("B" : String) == "A") = false := by decide

/-- Raw table on which the two aggregations disagree: group A's protein has
a missing cell. -/
def rsC5 : List RawRecord :=
  [⟨"A", none, some 1, some 1⟩, ⟨"A", some 10, some 1, some 1⟩,
   ⟨"B", some 30, some 1, some 1⟩]

/-- C5 as stated is false: on `rsC5` the pipeline cleans group A's missing
protein cell with the global column mean 20, making its per-group mean 15,
while the remote job's skip-missing mean for group A is 10. -/
theorem remote_pipeline_counterexample :
    groupMeanOpt (cleanTable rsC5) (·.protein) "A" ≠ groupMeanOpt rsC5 (·.protein) "A" := by
  have hclean : cleanTable rsC5 =
      [⟨"A", some 20, some 1, some 1⟩, ⟨"A", some 10, some 1, some 1⟩,
       ⟨"B", some 30, some 1, some 1⟩] := by
    norm_num [cleanTable, rsC5, colMean, fillVal, List.reduceOption_cons_of_some,
      List.reduceOption_cons_of_none, List.reduceOption_nil]
  have h1 : groupMeanOpt (cleanTable rsC5) (·.protein) "A" = some 15 := by
    rw [hclean]
    norm_num [groupMeanOpt, colMean, List.filter_cons, beqAA, beqBA,
      List.reduceOption_cons_of_some, List.reduceOption_nil]
  have h2 : groupMeanOpt rsC5 (·.protein) "A" = some 10 := by
    norm_num [groupMeanOpt, rsC5, colMean, List.filter_cons, beqAA, beqBA,
      List.reduceOption_cons_of_some, List.reduceOption_cons_of_none,
      List.reduceOption_nil]
  rw [h1, h2]
  norm_num

/-- Complete raw table (no missing macro cell), for the C5 witness. -/
def rsC5ok : List RawRecord :=
  [⟨"A", some 10, some 1, some 1⟩, ⟨"B", some 30, some 1, some 1⟩]

/-- Witness for `remote_matches_pipeline` on the complete table `rsC5ok` at
diet type A. -/
theorem remote_matches_pipeline_witness :
    groupMeanOpt (cleanTable rsC5ok) (·.protein) "A" = groupMeanOpt rsC5ok (·.protein) "A" ∧
    groupMeanOpt (cleanTable rsC5ok) (·.carbs) "A" = groupMeanOpt rsC5ok (·.carbs) "A" ∧
    groupMeanOpt (cleanTable rsC5ok) (·.fat) "A" = groupMeanOpt rsC5ok (·.fat) "A" :=
  remote_matches_pipeline rsC5ok (by decide) "A"

/-! ### Remote job control flow, claims C8 and C9 -/

/-- C8: when the container already exists (container creation reports the
already-exists failure) the job proceeds without raising and its JSON output
array has one record per distinct diet type of the downloaded CSV. -/
theorem remote_already_exists_spec (rows : List RawRecord) :
    runRemoteJob ⟨Except.error PyExn.alreadyExists, Except.ok rows, Except.ok ()⟩
        = Except.ok (lambdaAvgMacros rows) ∧
    (lambdaAvgMacros rows).length = ((rows.map (·.diet)).dedup).length := by
  refine ⟨rfl, ?_⟩
  rw [lambdaAvgMacros, List.length_map, rawDietTypes]
  exact (List.perm_insertionSort strLeK _).length_eq

/-- C9 as stated is false: a connection failure raised during container
setup does not propagate — the bare `except Exception` branch around
`create_container` swallows it and the job runs to completion. -/
theorem remote_setup_swallow_counterexample :
    runRemoteJob ⟨Except.error PyExn.connectionError, Except.ok [], Except.ok ()⟩
      = Except.ok [] := rfl

/-- C9 (amended): every failure of the blob download or of the result write
propagates uncaught and terminates the run, while every exception raised by
container creation — not only already-exists — is swallowed and treated as
benign. -/
theorem remote_error_propagation (c : Except PyExn Unit) (rows : List RawRecord)
    (e : PyExn) (w : Except PyExn Unit) :
    runRemoteJob ⟨c, Except.error e, w⟩ = Except.error e ∧
    runRemoteJob ⟨c, Except.ok rows, Except.error e⟩ = Except.error e ∧
    runRemoteJob ⟨c, Except.ok rows, Except.ok ()⟩ = Except.ok (lambdaAvgMacros rows) :=
  ⟨rfl, rfl, rfl⟩

/-! ### Remote job output order, claim C10 -/

/-- Raw 2-row table whose ascending key order differs from its
protein-descending order. -/
def rawOrd : List RawRecord :=
  [⟨"A", some 5, some 1, some 1⟩, ⟨"B", some 10, some 1, some 1⟩]

/-- The same 2-row table as cleaned records, for the pipeline aggregate. -/
def rsOrd : List Record :=
  [⟨"A", "r", "c", 5, 1, 1⟩, ⟨"B", "r", "c", 10, 1, 1⟩]

/-- C10: the remote job's JSON array has one record per distinct diet type,
ordered ascending by diet-type key (the groupby default), and on a concrete
table its order (A before B) differs from the protein-descending order of
the pipeline's aggregate (B before A). -/
theorem lambda_output_order (rows : List RawRecord) :
    List.Sorted strLeK ((lambdaAvgMacros rows).map (·.dietType)) ∧
    ((lambdaAvgMacros rows).map (·.dietType)).Nodup ∧
    (∀ d, d ∈ (lambdaAvgMacros rows).map (·.dietType) ↔ d ∈ rows.map (·.diet)) ∧
    (lambdaAvgMacros rawOrd).map (·.dietType) = ["A", "B"] ∧
    (avg_macros rsOrd).map (·.dietType) = ["B", "A"] := by
  have hkeys : (lambdaAvgMacros rows).map (·.dietType) = rawDietTypes rows := by
    simp [lambdaAvgMacros, List.map_map, Function.comp_def]
  refine ⟨?_, ?_, ?_, ?_, ?_⟩
  · rw [hkeys, rawDietTypes]
    exact List.sorted_insertionSort strLeK _
  · rw [hkeys, rawDietTypes]
    exact (List.perm_insertionSort strLeK _).symm.nodup (List.nodup_dedup _)
  · intro d
    rw [hkeys, rawDietTypes, List.mem_insertionSort]
    exact List.mem_dedup
  · have hk : (lambdaAvgMacros rawOrd).map (·.dietType) = rawDietTypes rawOrd := by
      simp [lambdaAvgMacros, List.map_map, Function.comp_def]
    rw [hk]
    decide
  · have k1 : dietTypes rsOrd = ["A", "B"] := by decide
    have k2 : groupRows rsOrd "A" = [⟨"A", "r", "c", 5, 1, 1⟩] := by decide
    have k3 : groupRows rsOrd "B" = [⟨"B", "r", "c", 10, 1, 1⟩] := by decide
    simp only [avg_macros, k1, List.map_cons, List.map_nil, k2, k3]
    norm_num [meanOf, List.insertionSort, List.orderedInsert, aggGE]

end DietAnalysis
